import Mathlib

/-!
Shallow embedding of the reconciled list-mutation core of `src/Delete.tsx`
(the `Delete` screen of the Sortables repository).

The component state (React `useState` / `useRef` / observable hooks) is
collected in `DeleteState`.  The handlers (`onDragEnd`, `handleSave`, the
lifecycle `useEffect`) are modelled as pure state transformers that also
return the list of external calls (`Effect`) they issue, in order.  The
outcome of each remote call (`rearrangeWatchlist`, `bulkDeleteFromWatchlist`)
is passed in as a `Bool` parameter (`true` = the awaited promise resolved,
`false` = it rejected).
-/

set_option autoImplicit false

namespace Sortables

/-- `MarketWatchItem` from `store/marketwatch`: an entry with a stable
identity (`token`), a display `symbol` and a display `name`.  The fields are
optional in TypeScript, hence `Option String`. -/
structure MarketWatchItem where
  token : Option String
  symbol : Option String
  itemName : Option String
  deriving DecidableEq, Repr

/-- `item.token || ''` — the token string with the empty-string fallback used
throughout `Delete.tsx` (lines 129, 183, 197, 231, 234, 255). -/
def tokenOf (s : MarketWatchItem) : String :=
  s.token.getD ""

/-- The `errorModal` state (line 158): `{ visible, title, message }`. -/
structure ErrorModalState where
  visible : Bool
  title : String
  message : String
  deriving DecidableEq, Repr

/-- The mutable state of the `Delete` component:
`stocks` (line 150), `isReady` (line 151), `deleteMap` (line 156, an
observable record modelled as an association list in insertion order),
`isSaving` (line 157), `errorModal` (line 158) and `lastOrderRef.current`
(line 172). -/
structure DeleteState where
  stocks : List MarketWatchItem
  isReady : Bool
  deleteMap : List (String × Bool)
  isSaving : Bool
  errorModal : ErrorModalState
  lastOrder : List String
  deriving DecidableEq, Repr

/-- The external calls the handlers can issue, in program order. -/
inductive Effect where
  | rearrangeCall (watchlistId : String) (tokens : List String) (username : String)
  | bulkDeleteCall (watchlistId : String) (tokens : List String) (username : String)
  | storeSet (watchlistId : String) (items : List MarketWatchItem)
  | goBack
  | logError (tag : String)
  | cancelTask
  deriving DecidableEq, Repr

/-- `deleteMap[token]?.get() ?? false` (line 130): the marked flag of a
token, absent keys read as `false`. -/
def lookupFlag (m : List (String × Bool)) (token : String) : Bool :=
  (m.lookup token).getD false

/-- `deleteMap[token]?.set(v)`: writing a key of the observable record.  An
existing key is updated in place, a fresh key is appended (JavaScript record
insertion order). -/
def setFlag (m : List (String × Bool)) (token : String) (v : Bool) :
    List (String × Bool) :=
  if m.any (fun p => p.1 == token) then
    m.map (fun p => if p.1 == token then (token, v) else p)
  else
    m ++ [(token, v)]

/-- The `toggle` callback of `DeleteRowObserver` (lines 132-134):
`deleteMap[token]?.set(!isMarked)` with `isMarked = deleteMap[token]?.get() ?? false`. -/
def toggle (m : List (String × Bool)) (token : String) : List (String × Bool) :=
  setFlag m token (!(lookupFlag m token))

/-- `selectedCount` (lines 168-170):
`Object.values(deleteMap.get()).filter(Boolean).length`. -/
def selectedCount (m : List (String × Bool)) : Nat :=
  ((m.map Prod.snd).filter (fun b => b)).length

/-- The snapshot taken at the top of `handleSave` (lines 219-221):
`Object.entries(deleteMap.peek()).filter(([_, value]) => value).map(([key]) => key)`. -/
def snapshotSelected (m : List (String × Bool)) : List String :=
  (m.filter (fun p => p.2)).map Prod.fst

/-- The change test of `onDragEnd` (lines 198-200):
`newTokens.some((t, i) => t !== lastOrderRef.current[i])` — quantifies over
the indices of `newTokens`; an out-of-range read of `lastOrderRef.current`
yields `undefined`, which differs from every string. -/
def hasChanged (newTokens lastOrder : List String) : Bool :=
  (List.range newTokens.length).any (fun i => !(newTokens[i]? == lastOrder[i]?))

/-- The synchronous part of `onDragEnd` (lines 195-209), up to and including
issuing the `rearrangeWatchlist` call: compute `newTokens`, return early when
nothing changed, otherwise `setStocks(newOrder)`,
`lastOrderRef.current = newTokens` and invoke the remote rearrange service.
This is the state visible before the remote call resolves. -/
def onDragEndStart (watchlistId username : String) (st : DeleteState)
    (newOrder : List MarketWatchItem) : DeleteState × List Effect :=
  let newTokens := newOrder.map tokenOf
  if hasChanged newTokens st.lastOrder then
    ({ st with stocks := newOrder, lastOrder := newTokens },
      [Effect.rearrangeCall watchlistId newTokens username])
  else
    (st, [])

/-- The whole of `onDragEnd` (lines 195-216), with the outcome of the awaited
`rearrangeWatchlist` call passed as `remoteOk`: on success `setData` is
called with the candidate items, on failure the error is only logged. -/
def onDragEnd (watchlistId username : String) (st : DeleteState)
    (newOrder : List MarketWatchItem) (remoteOk : Bool) : DeleteState × List Effect :=
  let newTokens := newOrder.map tokenOf
  if hasChanged newTokens st.lastOrder then
    let st1 := { st with stocks := newOrder, lastOrder := newTokens }
    if remoteOk then
      (st1, [Effect.rearrangeCall watchlistId newTokens username,
             Effect.storeSet watchlistId newOrder])
    else
      (st1, [Effect.rearrangeCall watchlistId newTokens username,
             Effect.logError "Error rearranging:"])
  else
    (st, [])

/-- `handleSave` (lines 218-243), with the outcome of the awaited
`bulkDeleteFromWatchlist` call passed as `remoteOk`.  The selection snapshot
is taken first; the guard `if (isSaving || itemsToDelete.length === 0)`
returns without any call or mutation.  On success the snapshot identities are
filtered out of `stocks`, the result is pushed to the store, the ref and the
selection are reset and `navigation.goBack()` fires; on failure the error is
logged and the error modal is shown.  `finally` clears `isSaving`. -/
def handleSave (watchlistId username : String) (st : DeleteState)
    (remoteOk : Bool) : DeleteState × List Effect :=
  let itemsToDelete := snapshotSelected st.deleteMap
  if st.isSaving || itemsToDelete.isEmpty then
    (st, [])
  else if remoteOk then
    let updated := st.stocks.filter (fun s => !(itemsToDelete.contains (tokenOf s)))
    ({ st with stocks := updated, lastOrder := updated.map tokenOf,
               deleteMap := [], isSaving := false },
      [Effect.bulkDeleteCall watchlistId itemsToDelete username,
       Effect.storeSet watchlistId updated,
       Effect.goBack])
  else
    ({ st with isSaving := false,
               errorModal := { visible := true, title := "Error",
                               message := "Failed to delete items" } },
      [Effect.bulkDeleteCall watchlistId itemsToDelete username,
       Effect.logError "Error deleting:"])

/-- The body of the `InteractionManager.runAfterInteractions` task of the
lifecycle `useEffect` (lines 179-185): read the initial items from the shared
store (`initialData` here stands for that point-in-time read), populate the
collection, set the confirmed-order ref, flag ready. -/
def lifecycleEnter (initialData : List MarketWatchItem) (st : DeleteState) :
    DeleteState :=
  { st with stocks := initialData, lastOrder := initialData.map tokenOf,
            isReady := true }

/-- The cleanup of the lifecycle `useEffect` (lines 187-192): cancel the
deferred task, clear the collection, drop readiness, clear the selection.
Note: `lastOrderRef.current` is not touched here. -/
def lifecycleTeardown (st : DeleteState) : DeleteState × List Effect :=
  ({ st with stocks := [], isReady := false, deleteMap := [] },
    [Effect.cancelTask])

/-- Concrete items for the witnesses. -/
def itemA : MarketWatchItem := ⟨some "A", some "AAA", some "Alpha"⟩

def itemB : MarketWatchItem := ⟨some "B", some "BBB", some "Beta"⟩

def itemC : MarketWatchItem := ⟨some "C", some "CCC", some "Gamma"⟩

def itemD : MarketWatchItem := ⟨some "D", some "DDD", some "Delta"⟩

def quietModal : ErrorModalState := ⟨false, "", ""⟩

/-- A settled state holding `[A, B, C, D]` with `A` and `C` marked. -/
def stABCD : DeleteState :=
  { stocks := [itemA, itemB, itemC, itemD]
    isReady := true
    deleteMap := [("A", true), ("B", false), ("C", true)]
    isSaving := false
    errorModal := quietModal
    lastOrder := ["A", "B", "C", "D"] }

/-- A settled state holding `[A, B]` with nothing marked. -/
def stAB : DeleteState :=
  { stocks := [itemA, itemB]
    isReady := true
    deleteMap := []
    isSaving := false
    errorModal := quietModal
    lastOrder := ["A", "B"] }

/-- A settled state holding just `[A]`. -/
def stA : DeleteState :=
  { stocks := [itemA]
    isReady := true
    deleteMap := []
    isSaving := false
    errorModal := quietModal
    lastOrder := ["A"] }

/-! ### Helper lemmas about the change test -/

theorem hasChanged_append (xs rest : List String) :
    hasChanged xs (xs ++ rest) = false := by
  simp only [hasChanged, List.any_eq_false, List.mem_range]
  intro i hi
  rw [List.getElem?_append_left hi]
  simp

theorem hasChanged_self (xs : List String) : hasChanged xs xs = false := by
  have h := hasChanged_append xs []
  simpa using h

theorem hasChanged_of_ne_at (xs ys : List String) (i : Nat) (h1 : i < xs.length)
    (h2 : xs[i]? ≠ ys[i]?) : hasChanged xs ys = true := by
  simp only [hasChanged, List.any_eq_true, List.mem_range]
  exact ⟨i, h1, by simpa using h2⟩

theorem hasChanged_of_longer (xs ys : List String) (h : ys.length < xs.length) :
    hasChanged xs ys = true := by
  apply hasChanged_of_ne_at xs ys ys.length h
  rw [List.getElem?_eq_getElem h, List.getElem?_eq_none (le_refl ys.length)]
  simp

/-! ### C1 and C2: the reorder reconciler -/

/-- C1: for every candidate order whose token sequence is positionally equal
to LastConfirmedOrder, the reorder handler performs zero state mutation
(the whole state, in particular `stocks` and `lastOrder`, is returned
unchanged) and makes zero remote calls (the effect list is empty: neither
the rearrange service nor the shared store is invoked). -/
theorem reorder_equal_order_is_noop (watchlistId username : String)
    (st : DeleteState) (newOrder : List MarketWatchItem) (remoteOk : Bool)
    (h : newOrder.map tokenOf = st.lastOrder) :
    onDragEnd watchlistId username st newOrder remoteOk = (st, []) ∧
    onDragEndStart watchlistId username st newOrder = (st, []) := by
  have hc : hasChanged (newOrder.map tokenOf) st.lastOrder = false := by
    rw [h]
    exact hasChanged_self st.lastOrder
  constructor <;> simp [onDragEnd, onDragEndStart, hc]

theorem reorder_equal_order_is_noop_witness :
    onDragEnd "w1" "alice" stAB [itemA, itemB] true = (stAB, []) ∧
    onDragEndStart "w1" "alice" stAB [itemA, itemB] = (stAB, []) :=
  reorder_equal_order_is_noop "w1" "alice" stAB [itemA, itemB] true rfl

/-- C2: for every candidate order differing from LastConfirmedOrder in at
least one (candidate) position, the handler applies the candidate to the
collection and to `lastOrder` already in its synchronous part, i.e. before
the remote rearrange call resolves (`onDragEndStart` is the state at the
await point, with the rearrange call already issued), and on remote success
the candidate ordered items are propagated to the shared store. -/
theorem reorder_changed_order_optimistic (watchlistId username : String)
    (st : DeleteState) (newOrder : List MarketWatchItem)
    (h : ∃ i, i < (newOrder.map tokenOf).length ∧
      (newOrder.map tokenOf)[i]? ≠ st.lastOrder[i]?) :
    (onDragEndStart watchlistId username st newOrder).1.stocks = newOrder ∧
    (onDragEndStart watchlistId username st newOrder).1.lastOrder = newOrder.map tokenOf ∧
    (onDragEndStart watchlistId username st newOrder).2 =
      [Effect.rearrangeCall watchlistId (newOrder.map tokenOf) username] ∧
    (onDragEnd watchlistId username st newOrder true).1.stocks = newOrder ∧
    (onDragEnd watchlistId username st newOrder true).1.lastOrder = newOrder.map tokenOf ∧
    Effect.storeSet watchlistId newOrder ∈ (onDragEnd watchlistId username st newOrder true).2 := by
  obtain ⟨i, hi, hne⟩ := h
  have hc := hasChanged_of_ne_at _ _ i hi hne
  refine ⟨?_, ?_, ?_, ?_, ?_, ?_⟩ <;> simp [onDragEnd, onDragEndStart, hc]

theorem reorder_changed_order_optimistic_witness :
    (onDragEndStart "w1" "alice" stAB [itemB, itemA]).1.stocks = [itemB, itemA] ∧
    (onDragEndStart "w1" "alice" stAB [itemB, itemA]).1.lastOrder = ["B", "A"] ∧
    (onDragEndStart "w1" "alice" stAB [itemB, itemA]).2 =
      [Effect.rearrangeCall "w1" ["B", "A"] "alice"] ∧
    (onDragEnd "w1" "alice" stAB [itemB, itemA] true).1.stocks = [itemB, itemA] ∧
    (onDragEnd "w1" "alice" stAB [itemB, itemA] true).1.lastOrder = ["B", "A"] ∧
    Effect.storeSet "w1" [itemB, itemA] ∈ (onDragEnd "w1" "alice" stAB [itemB, itemA] true).2 :=
  reorder_changed_order_optimistic "w1" "alice" stAB [itemB, itemA]
    ⟨0, by decide, by decide⟩

/-! ### C3-C6: the bulk-delete reconciler and the reorder failure path -/

/-- C5: when the remote rearrange call fails, the failure is only logged:
the optimistically applied order and `lastOrder` stand (no rollback), the
error modal is untouched (nothing surfaced to the user), and the effect
list is exactly the rearrange call followed by the log entry — in
particular no shared-store update. -/
theorem reorder_failure_logged_only (watchlistId username : String)
    (st : DeleteState) (newOrder : List MarketWatchItem)
    (h : ∃ i, i < (newOrder.map tokenOf).length ∧
      (newOrder.map tokenOf)[i]? ≠ st.lastOrder[i]?) :
    (onDragEnd watchlistId username st newOrder false).1.stocks = newOrder ∧
    (onDragEnd watchlistId username st newOrder false).1.lastOrder = newOrder.map tokenOf ∧
    (onDragEnd watchlistId username st newOrder false).1.errorModal = st.errorModal ∧
    (onDragEnd watchlistId username st newOrder false).1.deleteMap = st.deleteMap ∧
    (onDragEnd watchlistId username st newOrder false).2 =
      [Effect.rearrangeCall watchlistId (newOrder.map tokenOf) username,
       Effect.logError "Error rearranging:"] := by
  obtain ⟨i, hi, hne⟩ := h
  have hc := hasChanged_of_ne_at _ _ i hi hne
  refine ⟨?_, ?_, ?_, ?_, ?_⟩ <;> simp [onDragEnd, hc]

theorem reorder_failure_logged_only_witness :
    (onDragEnd "w1" "alice" stAB [itemB, itemA] false).1.stocks = [itemB, itemA] ∧
    (onDragEnd "w1" "alice" stAB [itemB, itemA] false).1.lastOrder = ["B", "A"] ∧
    (onDragEnd "w1" "alice" stAB [itemB, itemA] false).1.errorModal = stAB.errorModal ∧
    (onDragEnd "w1" "alice" stAB [itemB, itemA] false).1.deleteMap = stAB.deleteMap ∧
    (onDragEnd "w1" "alice" stAB [itemB, itemA] false).2 =
      [Effect.rearrangeCall "w1" ["B", "A"] "alice",
       Effect.logError "Error rearranging:"] :=
  reorder_failure_logged_only "w1" "alice" stAB [itemB, itemA]
    ⟨0, by decide, by decide⟩

/-- C6: invoking the bulk-delete handler while a save is in flight, or while
the snapshot of selected identities is empty, is a complete no-op: the state
is returned unchanged and no effect (in particular no remote call) is
issued. -/
theorem bulk_delete_guard_noop (watchlistId username : String)
    (st : DeleteState) (remoteOk : Bool)
    (h : st.isSaving = true ∨ snapshotSelected st.deleteMap = []) :
    handleSave watchlistId username st remoteOk = (st, []) := by
  rcases h with h | h
  · simp [handleSave, h]
  · simp [handleSave, h]

theorem bulk_delete_guard_noop_witness :
    handleSave "w1" "alice" { stABCD with isSaving := true } true =
      ({ stABCD with isSaving := true }, []) ∧
    handleSave "w1" "alice" stAB true = (stAB, []) :=
  ⟨bulk_delete_guard_noop "w1" "alice" { stABCD with isSaving := true } true (Or.inl rfl),
   bulk_delete_guard_noop "w1" "alice" stAB true (Or.inr rfl)⟩

/-- C3: on a successful bulk delete, the snapshot identities are filtered
out of the collection (a sublist of the old collection, so the survivors
keep their relative order and no survivor carries a snapshot identity), the
selection is cleared, and the effect list is the bulk-delete call, the
shared-store propagation of the resulting collection, and the host exit
signal, in that order. -/
theorem bulk_delete_success (watchlistId username : String) (st : DeleteState)
    (hSaving : st.isSaving = false)
    (hNonempty : snapshotSelected st.deleteMap ≠ []) :
    (handleSave watchlistId username st true).1.stocks =
      st.stocks.filter (fun s => !((snapshotSelected st.deleteMap).contains (tokenOf s))) ∧
    (handleSave watchlistId username st true).1.stocks.Sublist st.stocks ∧
    (∀ s ∈ (handleSave watchlistId username st true).1.stocks,
      tokenOf s ∉ snapshotSelected st.deleteMap) ∧
    (handleSave watchlistId username st true).1.deleteMap = [] ∧
    (handleSave watchlistId username st true).2 =
      [Effect.bulkDeleteCall watchlistId (snapshotSelected st.deleteMap) username,
       Effect.storeSet watchlistId ((handleSave watchlistId username st true).1.stocks),
       Effect.goBack] := by
  have hE : (snapshotSelected st.deleteMap).isEmpty = false := by
    simpa using hNonempty
  refine ⟨?_, ?_, ?_, ?_, ?_⟩
  · simp [handleSave, hSaving, hE]
  · simp only [handleSave, hSaving, hE, Bool.false_or, if_neg, Bool.false_eq_true,
      not_false_eq_true, if_true]
    exact List.filter_sublist st.stocks
  · intro s hs
    simp [handleSave, hSaving, hE, List.mem_filter] at hs
    exact hs.2
  · simp [handleSave, hSaving, hE]
  · simp [handleSave, hSaving, hE]

theorem bulk_delete_success_witness :
    (handleSave "w1" "alice" stABCD true).1.stocks = [itemB, itemD] ∧
    (handleSave "w1" "alice" stABCD true).1.deleteMap = [] ∧
    (handleSave "w1" "alice" stABCD true).2 =
      [Effect.bulkDeleteCall "w1" ["A", "C"] "alice",
       Effect.storeSet "w1" [itemB, itemD],
       Effect.goBack] := by
  have h := bulk_delete_success "w1" "alice" stABCD rfl (by decide)
  exact ⟨by decide, h.2.2.2.1, by decide⟩

/-- C4: on a failed bulk delete the collection, the confirmed order and the
selection are unchanged, the error modal shows the fixed message, the saving
flag is back to `false`, the effect list is the bulk-delete call followed by
the log entry (no store update, no exit), and an immediately following
delete attempt again reaches the remote bulk-delete call (the guard does not
block it). -/
theorem bulk_delete_failure (watchlistId username : String) (st : DeleteState)
    (hSaving : st.isSaving = false)
    (hNonempty : snapshotSelected st.deleteMap ≠ []) :
    (handleSave watchlistId username st false).1.stocks = st.stocks ∧
    (handleSave watchlistId username st false).1.lastOrder = st.lastOrder ∧
    (handleSave watchlistId username st false).1.deleteMap = st.deleteMap ∧
    (handleSave watchlistId username st false).1.errorModal =
      ⟨true, "Error", "Failed to delete items"⟩ ∧
    (handleSave watchlistId username st false).1.isSaving = false ∧
    (handleSave watchlistId username st false).2 =
      [Effect.bulkDeleteCall watchlistId (snapshotSelected st.deleteMap) username,
       Effect.logError "Error deleting:"] ∧
    (∀ remoteOk2 : Bool,
      Effect.bulkDeleteCall watchlistId (snapshotSelected st.deleteMap) username ∈
        (handleSave watchlistId username
          (handleSave watchlistId username st false).1 remoteOk2).2) := by
  have hE : (snapshotSelected st.deleteMap).isEmpty = false := by
    simpa using hNonempty
  refine ⟨?_, ?_, ?_, ?_, ?_, ?_, ?_⟩
  · simp [handleSave, hSaving, hE]
  · simp [handleSave, hSaving, hE]
  · simp [handleSave, hSaving, hE]
  · simp [handleSave, hSaving, hE]
  · simp [handleSave, hSaving, hE]
  · simp [handleSave, hSaving, hE]
  · intro remoteOk2
    cases remoteOk2 <;> simp [handleSave, hSaving, hE]

theorem bulk_delete_failure_witness :
    (handleSave "w1" "alice" stABCD false).1.stocks = stABCD.stocks ∧
    (handleSave "w1" "alice" stABCD false).1.deleteMap = stABCD.deleteMap ∧
    (handleSave "w1" "alice" stABCD false).1.errorModal =
      ⟨true, "Error", "Failed to delete items"⟩ ∧
    (handleSave "w1" "alice" stABCD false).1.isSaving = false ∧
    Effect.bulkDeleteCall "w1" ["A", "C"] "alice" ∈
      (handleSave "w1" "alice" (handleSave "w1" "alice" stABCD false).1 true).2 := by
  have h := bulk_delete_failure "w1" "alice" stABCD rfl (by decide)
  exact ⟨h.1, h.2.2.1, h.2.2.2.1, h.2.2.2.2.1, h.2.2.2.2.2.2 true⟩

/-! ### C7: the selection set -/

theorem lookup_cons_pair (t k : String) (b : Bool) (es : List (String × Bool)) :
    ((k, b) :: es).lookup t = bif t == k then some b else es.lookup t := rfl

theorem lookup_map_set (m : List (String × Bool)) (t : String) (v : Bool) :
    (m.map (fun p => if p.1 == t then (t, v) else p)).lookup t =
      if m.any (fun p => p.1 == t) then some v else none := by
  induction m with
  | nil => simp
  | cons hd tl ih =>
    obtain ⟨k, b⟩ := hd
    by_cases h : k = t
    · subst h
      simp [lookup_cons_pair]
    · have hbe : (k == t) = false := by simpa using h
      have htk : (t == k) = false := by simpa using (Ne.symm h)
      rw [List.map_cons, if_neg (by simp [h]), lookup_cons_pair, htk, cond_false,
        List.any_cons, hbe, Bool.false_or, ih]

theorem lookup_append_right (m l : List (String × Bool)) (t : String)
    (h : ∀ p ∈ m, p.1 ≠ t) : (m ++ l).lookup t = l.lookup t := by
  induction m with
  | nil => rfl
  | cons hd tl ih =>
    obtain ⟨k, b⟩ := hd
    have htk : (t == k) = false := by simpa using (Ne.symm (h (k, b) (by simp)))
    rw [List.cons_append, lookup_cons_pair, htk, cond_false]
    exact ih (fun p hp => h p (List.mem_cons_of_mem _ hp))

theorem lookupFlag_setFlag (m : List (String × Bool)) (t : String) (v : Bool) :
    lookupFlag (setFlag m t v) t = v := by
  unfold lookupFlag setFlag
  by_cases h : m.any (fun p => p.1 == t) = true
  · rw [if_pos h, lookup_map_set, if_pos h]
    rfl
  · rw [if_neg h, lookup_append_right]
    · simp [lookup_cons_pair]
    · intro p hp hpt
      exact h (List.any_eq_true.mpr ⟨p, hp, by simpa using hpt⟩)

/-- C7: the derived `selectedCount` equals the number of entries of the
selection map whose flag is `true`; toggling an identity flips its flag (an
absent identity becomes `true`), and toggling the same identity twice
restores its original flag. -/
theorem selection_count_and_toggle (m : List (String × Bool)) (t : String) :
    selectedCount m = (m.filter (fun p => p.2)).length ∧
    lookupFlag (toggle m t) t = !(lookupFlag m t) ∧
    (m.lookup t = none → lookupFlag (toggle m t) t = true) ∧
    lookupFlag (toggle (toggle m t) t) t = lookupFlag m t := by
  refine ⟨?_, ?_, ?_, ?_⟩
  · induction m with
    | nil => rfl
    | cons hd tl ih =>
      by_cases h : hd.2 <;>
        simp_all [selectedCount, List.filter_cons, h]
  · exact lookupFlag_setFlag m t (!(lookupFlag m t))
  · intro h
    rw [toggle, lookupFlag_setFlag]
    simp [lookupFlag, h]
  · rw [toggle, toggle, lookupFlag_setFlag, lookupFlag_setFlag, Bool.not_not]

theorem selection_count_and_toggle_witness :
    [("A", true), ("B", false)].lookup "C" = none ∧
    lookupFlag (toggle [("A", true), ("B", false)] "C") "C" = true :=
  ⟨by decide,
   (selection_count_and_toggle [("A", true), ("B", false)] "C").2.2.1 (by decide)⟩

/-! ### C8: the LastConfirmedOrder / collection identity-set relationship -/

/-- C8 counterexample: the teardown cleanup clears the collection but does
not touch `lastOrderRef.current`, so from a state where the identity sets
agree (`stA`: collection `[A]`, confirmed order `["A"]`) teardown produces a
state where they differ — the claim that teardown preserves the equality is
false on the code. -/
theorem teardown_breaks_identity_set_equality :
    (∀ t, t ∈ stA.lastOrder ↔ t ∈ stA.stocks.map tokenOf) ∧
    ¬ (∀ t, t ∈ (lifecycleTeardown stA).1.lastOrder ↔
        t ∈ (lifecycleTeardown stA).1.stocks.map tokenOf) := by
  constructor
  · intro t
    exact Iff.rfl
  · intro h
    have hmem : "A" ∈ (lifecycleTeardown stA).1.lastOrder := by
      simp [lifecycleTeardown, stA]
    have := (h "A").mp hmem
    simp [lifecycleTeardown] at this

/-- C8 amended: initial load establishes the identity-set equality between
`lastOrder` and the collection, and reorder and bulk delete preserve it
(whatever the remote outcome); teardown, however, clears the collection
while leaving `lastOrder` untouched, and the equality is re-established
only by the next initial load. -/
theorem identity_set_equality_amended (watchlistId username : String)
    (st : DeleteState) (d newOrder : List MarketWatchItem) (remoteOk : Bool)
    (hInv : ∀ t, t ∈ st.lastOrder ↔ t ∈ st.stocks.map tokenOf) :
    (∀ t, t ∈ (lifecycleEnter d st).lastOrder ↔
        t ∈ (lifecycleEnter d st).stocks.map tokenOf) ∧
    (∀ t, t ∈ (onDragEnd watchlistId username st newOrder remoteOk).1.lastOrder ↔
        t ∈ (onDragEnd watchlistId username st newOrder remoteOk).1.stocks.map tokenOf) ∧
    (∀ t, t ∈ (handleSave watchlistId username st remoteOk).1.lastOrder ↔
        t ∈ (handleSave watchlistId username st remoteOk).1.stocks.map tokenOf) ∧
    (lifecycleTeardown st).1.lastOrder = st.lastOrder ∧
    (lifecycleTeardown st).1.stocks = [] ∧
    (∀ t, t ∈ (lifecycleEnter d (lifecycleTeardown st).1).lastOrder ↔
        t ∈ (lifecycleEnter d (lifecycleTeardown st).1).stocks.map tokenOf) := by
  refine ⟨fun t => Iff.rfl, ?_, ?_, rfl, rfl, fun t => Iff.rfl⟩
  · intro t
    by_cases hc : hasChanged (newOrder.map tokenOf) st.lastOrder
    · cases remoteOk <;> simp [onDragEnd, hc]
    · simp only [Bool.not_eq_true] at hc
      simpa [onDragEnd, hc] using hInv t
  · intro t
    by_cases hg : st.isSaving || (snapshotSelected st.deleteMap).isEmpty
    · simpa [handleSave, hg] using hInv t
    · simp only [Bool.not_eq_true] at hg
      cases remoteOk
      · simpa [handleSave, hg] using hInv t
      · simp [handleSave, hg]

theorem identity_set_equality_amended_witness :
    (∀ t, t ∈ (lifecycleEnter [itemB] stA).lastOrder ↔
        t ∈ (lifecycleEnter [itemB] stA).stocks.map tokenOf) ∧
    (∀ t, t ∈ (onDragEnd "w1" "alice" stA [itemA] true).1.lastOrder ↔
        t ∈ (onDragEnd "w1" "alice" stA [itemA] true).1.stocks.map tokenOf) ∧
    (∀ t, t ∈ (handleSave "w1" "alice" stA true).1.lastOrder ↔
        t ∈ (handleSave "w1" "alice" stA true).1.stocks.map tokenOf) ∧
    (lifecycleTeardown stA).1.lastOrder = stA.lastOrder ∧
    (lifecycleTeardown stA).1.stocks = [] ∧
    (∀ t, t ∈ (lifecycleEnter [itemB] (lifecycleTeardown stA).1).lastOrder ↔
        t ∈ (lifecycleEnter [itemB] (lifecycleTeardown stA).1).stocks.map tokenOf) :=
  identity_set_equality_amended "w1" "alice" stA [itemB] [itemA] true
    (fun _ => Iff.rfl)

/-! ### C9: teardown and fresh entry -/

/-- C9: teardown unconditionally cancels the deferred load task, clears the
collection, clears the selection and drops readiness; a teardown followed by
a fresh lifecycle entry leaves the selection empty and both the collection
and the confirmed order determined solely by the freshly read data. -/
theorem teardown_then_fresh_entry (st : DeleteState) (d : List MarketWatchItem) :
    (lifecycleTeardown st).2 = [Effect.cancelTask] ∧
    (lifecycleTeardown st).1.stocks = [] ∧
    (lifecycleTeardown st).1.deleteMap = [] ∧
    (lifecycleTeardown st).1.isReady = false ∧
    (lifecycleEnter d (lifecycleTeardown st).1).deleteMap = [] ∧
    (lifecycleEnter d (lifecycleTeardown st).1).stocks = d ∧
    (lifecycleEnter d (lifecycleTeardown st).1).lastOrder = d.map tokenOf ∧
    (lifecycleEnter d (lifecycleTeardown st).1).isReady = true :=
  ⟨rfl, rfl, rfl, rfl, rfl, rfl, rfl, rfl⟩

/-! ### C10: the change test quantifies over candidate positions only -/

/-- C10: the change test of the reorder handler quantifies only over the
candidate's positions: whenever the confirmed order extends the candidate's
token sequence (in particular when the candidate is a strict prefix of it),
the handler is a complete no-op; a candidate with more tokens than the
confirmed order is always treated as changed — the optimistic mutation is
applied and the rearrange call is issued. -/
theorem reorder_prefix_noop_longer_changed (watchlistId username : String)
    (st : DeleteState) (newOrder : List MarketWatchItem) (remoteOk : Bool)
    (rest : List String) :
    (st.lastOrder = newOrder.map tokenOf ++ rest →
      onDragEnd watchlistId username st newOrder remoteOk = (st, [])) ∧
    (st.lastOrder.length < (newOrder.map tokenOf).length →
      (onDragEnd watchlistId username st newOrder remoteOk).1.stocks = newOrder ∧
      (onDragEnd watchlistId username st newOrder remoteOk).1.lastOrder =
        newOrder.map tokenOf ∧
      Effect.rearrangeCall watchlistId (newOrder.map tokenOf) username ∈
        (onDragEnd watchlistId username st newOrder remoteOk).2) := by
  constructor
  · intro h
    have hc : hasChanged (newOrder.map tokenOf) st.lastOrder = false := by
      rw [h]
      exact hasChanged_append _ rest
    simp [onDragEnd, hc]
  · intro h
    have hc := hasChanged_of_longer (newOrder.map tokenOf) st.lastOrder h
    cases remoteOk <;> refine ⟨?_, ?_, ?_⟩ <;> simp [onDragEnd, hc]

theorem reorder_prefix_noop_longer_changed_witness :
    onDragEnd "w1" "alice" stAB [itemA] true = (stAB, []) ∧
    ((onDragEnd "w1" "alice" stA [itemA, itemB] true).1.stocks = [itemA, itemB] ∧
     (onDragEnd "w1" "alice" stA [itemA, itemB] true).1.lastOrder = ["A", "B"] ∧
     Effect.rearrangeCall "w1" ["A", "B"] "alice" ∈
       (onDragEnd "w1" "alice" stA [itemA, itemB] true).2) :=
  ⟨(reorder_prefix_noop_longer_changed "w1" "alice" stAB [itemA] true ["B"]).1 rfl,
   (reorder_prefix_noop_longer_changed "w1" "alice" stA [itemA, itemB] true []).2
     (by decide)⟩

end Sortables
